import Mathlib

/-!
Shallow embedding of the semver requirement evaluator (`src/eval.rs`).

The evaluator receives already-structured `Version`, `Comparator` and
`VersionReq` values and decides whether the version satisfies a comparator
or a requirement.  Every function below mirrors one Rust function of
`src/eval.rs`; early `return`s become nested `if`/`match` branches.
-/

namespace Semver

/-- One dot-separated prerelease identifier: numeric or alphanumeric. -/
inductive Identifier where
  | numeric (value : Nat)
  | alphanumeric (value : String)
deriving DecidableEq, Repr

/-- A prerelease tag: an ordered sequence of identifiers (empty = no tag). -/
abbrev Prerelease := List Identifier

/-- Modelled from the spec: precedence comparison of two prerelease
identifiers.  The `Ord` instance of the repository's `Prerelease` type is not
part of `src/`; the spec says numeric identifiers compare numerically and
sort before alphanumeric ones, and alphanumeric identifiers compare
lexically. -/
def identCmp : Identifier → Identifier → Ordering
  | .numeric a, .numeric b => compare a b
  | .numeric _, .alphanumeric _ => .lt
  | .alphanumeric _, .numeric _ => .gt
  | .alphanumeric a, .alphanumeric b => compare a b

/-- Modelled from the spec: identifier-by-identifier precedence comparison of
two identifier sequences; a sequence that runs out first sorts first. -/
def identsCmp : List Identifier → List Identifier → Ordering
  | [], [] => .eq
  | [], _ :: _ => .lt
  | _ :: _, [] => .gt
  | a :: as, b :: bs =>
    match identCmp a b with
    | .eq => identsCmp as bs
    | o => o

/-- Modelled from the spec: full precedence comparison of two prerelease
tags.  An empty prerelease sorts after any non-empty one; two non-empty tags
compare identifier by identifier. -/
def preCmp : Prerelease → Prerelease → Ordering
  | [], [] => .eq
  | [], _ :: _ => .gt
  | _ :: _, [] => .lt
  | a :: as, b :: bs => identsCmp (a :: as) (b :: bs)

/-- `a < b` in prerelease precedence order (Rust `<` on `Prerelease`). -/
def preLt (a b : Prerelease) : Bool := preCmp a b == Ordering.lt

/-- `a > b` in prerelease precedence order (Rust `>` on `Prerelease`). -/
def preGt (a b : Prerelease) : Bool := preCmp a b == Ordering.gt

/-- `a ≥ b` in prerelease precedence order (Rust `>=` on `Prerelease`). -/
def preGe (a b : Prerelease) : Bool := preCmp a b != Ordering.lt

/-- A semantic version; `build` is opaque metadata the evaluator never reads. -/
structure Version where
  major : Nat
  minor : Nat
  patch : Nat
  pre : Prerelease
  build : String
deriving DecidableEq, Repr

/-- The closed set of comparator operators. -/
inductive Op where
  | Exact
  | Greater
  | GreaterEq
  | Less
  | LessEq
  | Tilde
  | Caret
  | Wildcard
deriving DecidableEq, Repr

/-- One range clause; `minor`/`patch` absent means "unspecified field". -/
structure Comparator where
  op : Op
  major : Nat
  minor : Option Nat
  patch : Option Nat
  pre : Prerelease
deriving DecidableEq, Repr

/-- An ordered sequence of comparators, implicitly AND-ed together. -/
structure VersionReq where
  comparators : List Comparator
deriving DecidableEq, Repr

/-- `matches_exact` of `src/eval.rs`. -/
def matches_exact (cmp : Comparator) (ver : Version) : Bool :=
  if ver.major ≠ cmp.major then false
  else if (match cmp.minor with
           | some minor => ver.minor != minor
           | none => false) then false
  else if (match cmp.patch with
           | some patch => ver.patch != patch
           | none => false) then false
  else ver.pre = cmp.pre

/-- `matches_greater` of `src/eval.rs`. -/
def matches_greater (cmp : Comparator) (ver : Version) : Bool :=
  if ver.major ≠ cmp.major then ver.major > cmp.major
  else
    match cmp.minor with
    | none => false
    | some minor =>
      if ver.minor ≠ minor then ver.minor > minor
      else
        match cmp.patch with
        | none => false
        | some patch =>
          if ver.patch ≠ patch then ver.patch > patch
          else preGt ver.pre cmp.pre

/-- `matches_less` of `src/eval.rs`. -/
def matches_less (cmp : Comparator) (ver : Version) : Bool :=
  if ver.major ≠ cmp.major then ver.major < cmp.major
  else
    match cmp.minor with
    | none => false
    | some minor =>
      if ver.minor ≠ minor then ver.minor < minor
      else
        match cmp.patch with
        | none => false
        | some patch =>
          if ver.patch ≠ patch then ver.patch < patch
          else preLt ver.pre cmp.pre

/-- `matches_tilde` of `src/eval.rs`. -/
def matches_tilde (cmp : Comparator) (ver : Version) : Bool :=
  if ver.major ≠ cmp.major then false
  else if (match cmp.minor with
           | some minor => ver.minor != minor
           | none => false) then false
  else
    match cmp.patch with
    | some patch =>
      if ver.patch ≠ patch then ver.patch > patch
      else preGe ver.pre cmp.pre
    | none => preGe ver.pre cmp.pre

/-- `matches_caret` of `src/eval.rs`. -/
def matches_caret (cmp : Comparator) (ver : Version) : Bool :=
  if ver.major ≠ cmp.major then false
  else
    match cmp.minor with
    | none => true
    | some minor =>
      match cmp.patch with
      | none =>
        if cmp.major > 0 then ver.minor ≥ minor
        else ver.minor == minor
      | some patch =>
        if cmp.major > 0 then
          if ver.minor ≠ minor then ver.minor > minor
          else if ver.patch ≠ patch then ver.patch > patch
          else preGe ver.pre cmp.pre
        else if minor > 0 then
          if ver.minor ≠ minor then false
          else if ver.patch ≠ patch then ver.patch > patch
          else preGe ver.pre cmp.pre
        else
          if ver.minor ≠ minor ∨ ver.patch ≠ patch then false
          else preGe ver.pre cmp.pre

/-- `matches_impl` of `src/eval.rs`: per-operator field comparison. -/
def matches_impl (cmp : Comparator) (ver : Version) : Bool :=
  match cmp.op with
  | Op.Exact | Op.Wildcard => matches_exact cmp ver
  | Op.Greater => matches_greater cmp ver
  | Op.GreaterEq => matches_exact cmp ver || matches_greater cmp ver
  | Op.Less => matches_less cmp ver
  | Op.LessEq => matches_exact cmp ver || matches_less cmp ver
  | Op.Tilde => matches_tilde cmp ver
  | Op.Caret => matches_caret cmp ver

/-- `pre_is_compatible` of `src/eval.rs`: the prerelease gate for one
comparator. -/
def pre_is_compatible (cmp : Comparator) (ver : Version) : Bool :=
  cmp.major == ver.major
    && cmp.minor == some ver.minor
    && cmp.patch == some ver.patch
    && !cmp.pre.isEmpty

/-- `matches_req` of `src/eval.rs`: every comparator must pass
`matches_impl`; a version with a non-empty prerelease additionally needs at
least one prerelease-compatible comparator. -/
def matches_req (req : VersionReq) (ver : Version) : Bool :=
  if req.comparators.all fun cmp => matches_impl cmp ver then
    if ver.pre.isEmpty then true
    else req.comparators.any fun cmp => pre_is_compatible cmp ver
  else false

/-- `matches_comparator` of `src/eval.rs`. -/
def matches_comparator (cmp : Comparator) (ver : Version) : Bool :=
  matches_impl cmp ver && (ver.pre.isEmpty || pre_is_compatible cmp ver)

/-! ### Helper lemmas -/

theorem perm_all_eq {α : Type} {l₁ l₂ : List α} (h : l₁.Perm l₂) (f : α → Bool) :
    l₁.all f = l₂.all f := by
  rw [Bool.eq_iff_iff, List.all_eq_true, List.all_eq_true]
  exact ⟨fun H a ha => H a (h.mem_iff.mpr ha), fun H a ha => H a (h.mem_iff.mp ha)⟩

theorem perm_any_eq {α : Type} {l₁ l₂ : List α} (h : l₁.Perm l₂) (f : α → Bool) :
    l₁.any f = l₂.any f := by
  rw [Bool.eq_iff_iff, List.any_eq_true, List.any_eq_true]
  exact ⟨fun ⟨a, ha, hf⟩ => ⟨a, h.mem_iff.mp ha, hf⟩,
    fun ⟨a, ha, hf⟩ => ⟨a, h.mem_iff.mpr ha, hf⟩⟩

theorem pre_is_compatible_iff (cmp : Comparator) (ver : Version) :
    pre_is_compatible cmp ver = true ↔
      cmp.major = ver.major ∧ cmp.minor = some ver.minor ∧
        cmp.patch = some ver.patch ∧ cmp.pre ≠ [] := by
  simp only [pre_is_compatible, Bool.and_eq_true, beq_iff_eq, Bool.not_eq_true']
  cases cmp.pre <;> simp [and_assoc]

theorem matches_exact_iff (cmp : Comparator) (ver : Version) :
    matches_exact cmp ver = true ↔
      ver.major = cmp.major ∧ (∀ m, cmp.minor = some m → ver.minor = m) ∧
        (∀ p, cmp.patch = some p → ver.patch = p) ∧ ver.pre = cmp.pre := by
  rcases cmp with ⟨op, cmajor, cminor, cpatch, cpre⟩
  cases cminor <;> cases cpatch <;> simp [matches_exact]

/-! ### Claim theorems -/

/-- C4: for every comparator and version, the `GreaterEq` result equals the
disjunction of the `Exact` and `Greater` results on the same pair with only
the operator changed, and the `LessEq` result equals the disjunction of the
`Exact` and `Less` results. -/
theorem C4_ge_le_are_disjunctions (cmp : Comparator) (ver : Version) :
    matches_impl { cmp with op := Op.GreaterEq } ver =
        (matches_impl { cmp with op := Op.Exact } ver
          || matches_impl { cmp with op := Op.Greater } ver)
      ∧ matches_impl { cmp with op := Op.LessEq } ver =
        (matches_impl { cmp with op := Op.Exact } ver
          || matches_impl { cmp with op := Op.Less } ver) :=
  ⟨rfl, rfl⟩

/-- C7: for every version and every pair of requirements whose comparator
sequences are permutations of one another, `matches_req` returns the same
boolean result on both requirements. -/
theorem C7_perm_invariant (req₁ req₂ : VersionReq) (ver : Version)
    (h : req₁.comparators.Perm req₂.comparators) :
    matches_req req₁ ver = matches_req req₂ ver := by
  simp only [matches_req]
  rw [perm_all_eq h, perm_any_eq h]

/-- C7 witness: `matches_req` agrees on a concrete two-comparator requirement
and its reversal. -/
theorem C7_perm_invariant_witness :
    matches_req ⟨[⟨Op.GreaterEq, 1, some 0, some 0, []⟩,
        ⟨Op.Less, 2, some 0, some 0, []⟩]⟩ ⟨1, 5, 0, [], ""⟩ =
      matches_req ⟨[⟨Op.Less, 2, some 0, some 0, []⟩,
        ⟨Op.GreaterEq, 1, some 0, some 0, []⟩]⟩ ⟨1, 5, 0, [], ""⟩ :=
  C7_perm_invariant _ _ _ (List.Perm.swap _ _ _)

/-- C8: build metadata never participates in matching: for every comparator
and requirement, two versions that differ only in the `build` field get the
same result from `matches_comparator` and from `matches_req`. -/
theorem C8_build_irrelevant (cmp : Comparator) (req : VersionReq)
    (ver : Version) (b₁ b₂ : String) :
    matches_comparator cmp { ver with build := b₁ } =
        matches_comparator cmp { ver with build := b₂ }
      ∧ matches_req req { ver with build := b₁ } =
        matches_req req { ver with build := b₂ } :=
  ⟨rfl, rfl⟩

/-- C9: the empty requirement matches exactly the versions with an empty
prerelease (the comparator loop passes vacuously but the prerelease gate
finds no compatible comparator). -/
theorem C9_empty_req (ver : Version) :
    matches_req ⟨[]⟩ ver = ver.pre.isEmpty := by
  simp only [matches_req, List.all_nil, List.any_nil, if_true]
  cases ver.pre <;> simp

/-- C10: the two public entry points agree on singleton requirements:
`matches_req` on the one-element requirement `[cmp]` equals
`matches_comparator cmp`. -/
theorem C10_singleton_agree (cmp : Comparator) (ver : Version) :
    matches_req ⟨[cmp]⟩ ver = matches_comparator cmp ver := by
  cases h1 : matches_impl cmp ver <;> cases h2 : ver.pre.isEmpty <;>
    simp [matches_req, matches_comparator, h1, h2]

/-- C1: prerelease gating: for every requirement and every version with a
non-empty prerelease, `matches_req` is true iff every comparator passes its
field-comparison test and at least one comparator has equal major, minor and
patch both present and equal to the version's, and a non-empty pre;
`matches_comparator` applies the identical gate against its single
comparator. -/
theorem C1_pre_gating (req : VersionReq) (c : Comparator) (ver : Version)
    (h : ver.pre ≠ []) :
    (matches_req req ver = true ↔
        (∀ cmp ∈ req.comparators, matches_impl cmp ver = true) ∧
          ∃ cmp ∈ req.comparators, cmp.major = ver.major ∧
            cmp.minor = some ver.minor ∧ cmp.patch = some ver.patch ∧ cmp.pre ≠ [])
      ∧ (matches_comparator c ver = true ↔
          matches_impl c ver = true ∧ c.major = ver.major ∧
            c.minor = some ver.minor ∧ c.patch = some ver.patch ∧ c.pre ≠ []) := by
  have hie : ver.pre.isEmpty = false := by
    cases hp : ver.pre with
    | nil => exact absurd hp h
    | cons a l => rfl
  constructor
  · cases hall : req.comparators.all fun cmp => matches_impl cmp ver with
    | false =>
      simp only [matches_req, hall, Bool.false_eq_true, if_false]
      rw [List.all_eq_false] at hall
      obtain ⟨cmp, hmem, hfail⟩ := hall
      simp only [false_iff, not_and]
      intro hforall
      exact absurd (hforall cmp hmem) hfail
    | true =>
      simp only [matches_req, hall, hie, if_true, Bool.false_eq_true, if_false]
      rw [List.all_eq_true] at hall
      simp only [List.any_eq_true, pre_is_compatible_iff]
      exact ⟨fun ⟨cmp, hmem, hc⟩ => ⟨hall, cmp, hmem, hc⟩, fun ⟨_, hex⟩ => hex⟩
  · simp [matches_comparator, hie, pre_is_compatible_iff, and_assoc]

def c1Cmp : Comparator := ⟨Op.GreaterEq, 1, some 2, some 3, [Identifier.numeric 1]⟩

def c1Ver : Version := ⟨1, 2, 3, [Identifier.numeric 2], ""⟩

/-- C1 witness: the gate evaluated at the concrete comparator `>=1.2.3-1`
and the concrete version `1.2.3-2`. -/
theorem C1_pre_gating_witness :
    matches_comparator c1Cmp c1Ver = true ↔
      matches_impl c1Cmp c1Ver = true ∧ c1Cmp.major = c1Ver.major ∧
        c1Cmp.minor = some c1Ver.minor ∧ c1Cmp.patch = some c1Ver.patch ∧
          c1Cmp.pre ≠ [] :=
  (C1_pre_gating ⟨[c1Cmp]⟩ c1Cmp c1Ver (by decide)).2

/-- C3: for a `Greater` comparator with unspecified minor, the result is
false when the majors are equal and `ver.major > cmp.major` otherwise; the
mirror holds for `Less`. -/
theorem C3_minor_unspecified (cmp : Comparator) (ver : Version)
    (hm : cmp.minor = none) :
    (cmp.op = Op.Greater →
        (ver.major = cmp.major → matches_impl cmp ver = false)
          ∧ (ver.major ≠ cmp.major →
              matches_impl cmp ver = decide (ver.major > cmp.major)))
      ∧ (cmp.op = Op.Less →
        (ver.major = cmp.major → matches_impl cmp ver = false)
          ∧ (ver.major ≠ cmp.major →
              matches_impl cmp ver = decide (ver.major < cmp.major))) := by
  constructor <;> intro hop <;> constructor <;> intro hmaj <;>
    simp [matches_impl, hop, matches_greater, matches_less, hm, hmaj]

def c3Cmp : Comparator := ⟨Op.Greater, 1, none, none, []⟩

def c3Ver : Version := ⟨1, 5, 0, [], ""⟩

/-- C3 witness: the bare clause `>1` does not match version `1.5.0`. -/
theorem C3_minor_unspecified_witness :
    matches_impl c3Cmp c3Ver = false :=
  ((C3_minor_unspecified c3Cmp c3Ver rfl).1 rfl).1 rfl

/-- C5: for an `Exact` or `Wildcard` comparator, the field-comparison test
requires equal major, each specified field among minor and patch equal,
unspecified fields unconstrained, and structural equality of the prerelease
sequences; with all fields specified, `matches_comparator` is true iff
(major, minor, patch, pre) are pairwise equal, build metadata ignored. -/
theorem C5_exact_wildcard (cmp : Comparator) (ver : Version)
    (hop : cmp.op = Op.Exact ∨ cmp.op = Op.Wildcard) :
    (matches_impl cmp ver = true ↔
        ver.major = cmp.major ∧ (∀ m, cmp.minor = some m → ver.minor = m) ∧
          (∀ p, cmp.patch = some p → ver.patch = p) ∧ ver.pre = cmp.pre)
      ∧ (∀ m p, cmp.minor = some m → cmp.patch = some p →
          (matches_comparator cmp ver = true ↔
            ver.major = cmp.major ∧ ver.minor = m ∧ ver.patch = p ∧
              ver.pre = cmp.pre)) := by
  have himpl : matches_impl cmp ver = matches_exact cmp ver := by
    rcases hop with hop | hop <;> simp [matches_impl, hop]
  refine ⟨by rw [himpl]; exact matches_exact_iff cmp ver, ?_⟩
  intro m p hm hp
  rw [matches_comparator, himpl, Bool.and_eq_true]
  constructor
  · intro ⟨hex, _⟩
    obtain ⟨h1, h2, h3, h4⟩ := (matches_exact_iff cmp ver).mp hex
    exact ⟨h1, h2 m hm, h3 p hp, h4⟩
  · rintro ⟨h1, h2, h3, h4⟩
    refine ⟨(matches_exact_iff cmp ver).mpr
      ⟨h1, ?_, ?_, h4⟩, ?_⟩
    · intro m' hm'
      rw [hm, Option.some_inj] at hm'
      rw [← hm']
      exact h2
    · intro p' hp'
      rw [hp, Option.some_inj] at hp'
      rw [← hp']
      exact h3
    · cases hpre : ver.pre.isEmpty with
      | true => rfl
      | false =>
        rw [Bool.false_or, pre_is_compatible_iff]
        refine ⟨h1.symm, by rw [hm, h2], by rw [hp, h3], ?_⟩
        intro hnil
        rw [h4, hnil] at hpre
        simp at hpre

def c5Cmp : Comparator := ⟨Op.Exact, 1, some 2, some 3, [Identifier.numeric 7]⟩

def c5Ver : Version := ⟨1, 2, 3, [Identifier.numeric 7], "build5"⟩

/-- C5 witness: the fully specified comparator `=1.2.3-7` against version
`1.2.3-7+build5`. -/
theorem C5_exact_wildcard_witness :
    matches_comparator c5Cmp c5Ver = true ↔
      c5Ver.major = c5Cmp.major ∧ c5Ver.minor = 2 ∧ c5Ver.patch = 3 ∧
        c5Ver.pre = c5Cmp.pre :=
  (C5_exact_wildcard c5Cmp c5Ver (Or.inl rfl)).2 2 3 rfl rfl

/-- C2 counterexample: the caret comparator `^1.2.3-2` matches version
`1.3.0-1` even though the version's prerelease is strictly below the
comparator's in precedence order: the `ver.minor > minor` early return never
consults the prerelease fields, refuting the claim that in every branch the
result is true only if `ver.pre >= cmp.pre`. -/
theorem C2_caret_counterexample :
    matches_impl ⟨Op.Caret, 1, some 2, some 3, [Identifier.numeric 2]⟩
        ⟨1, 3, 0, [Identifier.numeric 1], ""⟩ = true
      ∧ preGe [Identifier.numeric 1] [Identifier.numeric 2] = false := by
  decide

/-- C2 (amended): in the caret rule, when both minor and patch are specified
and equal to the version's, the result (after the major check) is exactly the
`ver.pre >= cmp.pre` precedence test; in every other branch (minor
unspecified, patch unspecified, or a specified minor or patch differing from
the version's) the result is independent of the version's prerelease. -/
theorem C2_caret_pre_gate (cmp : Comparator) (ver : Version)
    (hop : cmp.op = Op.Caret) :
    (∀ m p, cmp.minor = some m → cmp.patch = some p → ver.minor = m →
        ver.patch = p →
        matches_impl cmp ver = (ver.major == cmp.major && preGe ver.pre cmp.pre))
      ∧ (cmp.minor = none →
          ∀ q, matches_impl cmp { ver with pre := q } = matches_impl cmp ver)
      ∧ (cmp.patch = none →
          ∀ q, matches_impl cmp { ver with pre := q } = matches_impl cmp ver)
      ∧ (∀ m, cmp.minor = some m → ver.minor ≠ m →
          ∀ q, matches_impl cmp { ver with pre := q } = matches_impl cmp ver)
      ∧ (∀ m p, cmp.minor = some m → cmp.patch = some p → ver.minor = m →
          ver.patch ≠ p →
          ∀ q, matches_impl cmp { ver with pre := q } = matches_impl cmp ver) := by
  rcases cmp with ⟨op, cmajor, cminor, cpatch, cpre⟩
  rcases ver with ⟨vmajor, vminor, vpatch, vpre, vbuild⟩
  subst hop
  simp only [matches_impl]
  refine ⟨?_, ?_, ?_, ?_, ?_⟩
  · rintro m p rfl rfl rfl rfl
    by_cases hmaj : vmajor = cmajor <;>
      simp [matches_caret, hmaj]
  · rintro rfl q
    simp [matches_caret]
  · rintro rfl q
    cases cminor <;> simp [matches_caret]
  · rintro m rfl hne q
    cases cpatch <;> by_cases hmaj : vmajor = cmajor <;>
      simp [matches_caret, hmaj, hne]
  · rintro m p rfl rfl rfl hne q
    by_cases hmaj : vmajor = cmajor <;>
      simp [matches_caret, hmaj, hne]

def c2Cmp : Comparator := ⟨Op.Caret, 1, some 2, some 3, [Identifier.numeric 1]⟩

def c2Ver : Version := ⟨1, 2, 3, [Identifier.numeric 2], ""⟩

/-- C2 witness: for the caret comparator `^1.2.3-1` and version `1.2.3-2`
with equal numeric fields, the result is the precedence test. -/
theorem C2_caret_pre_gate_witness :
    matches_impl c2Cmp c2Ver =
      (c2Ver.major == c2Cmp.major && preGe c2Ver.pre c2Cmp.pre) :=
  (C2_caret_pre_gate c2Cmp c2Ver rfl).1 2 3 rfl rfl rfl rfl

/-- C6 counterexample: the tilde comparator `~1.2.3-2` matches version
`1.2.4-1` even though the version's prerelease is strictly below the
comparator's in precedence order: the `ver.patch > patch` early return never
consults the prerelease fields, refuting the claim that the result
additionally requires `ver.pre >= cmp.pre`. -/
theorem C6_tilde_counterexample :
    matches_impl ⟨Op.Tilde, 1, some 2, some 3, [Identifier.numeric 2]⟩
        ⟨1, 2, 4, [Identifier.numeric 1], ""⟩ = true
      ∧ preGe [Identifier.numeric 1] [Identifier.numeric 2] = false := by
  decide

/-- C6 (amended): for a tilde comparator, the match holds iff the majors are
equal, a specified minor is equal, and either patch is specified and the
version's patch is strictly greater (no prerelease condition in that case),
or patch is unspecified or equal and `ver.pre >= cmp.pre` in precedence
order; in particular `~1.2` matches every `1.2.x` and rejects `1.3.0`. -/
theorem C6_tilde_rules (cmp : Comparator) (ver : Version)
    (hop : cmp.op = Op.Tilde) :
    (matches_impl cmp ver = true ↔
        ver.major = cmp.major ∧ (∀ m, cmp.minor = some m → ver.minor = m) ∧
          ((∃ p, cmp.patch = some p ∧ ver.patch ≠ p ∧ ver.patch > p)
            ∨ ((cmp.patch = none ∨ cmp.patch = some ver.patch)
                ∧ preGe ver.pre cmp.pre = true)))
      ∧ (∀ x b, matches_impl ⟨Op.Tilde, 1, some 2, none, []⟩ ⟨1, 2, x, [], b⟩ = true
          ∧ matches_impl ⟨Op.Tilde, 1, some 2, none, []⟩ ⟨1, 3, 0, [], b⟩ = false) := by
  constructor
  · rcases cmp with ⟨op, cmajor, cminor, cpatch, cpre⟩
    rcases ver with ⟨vmajor, vminor, vpatch, vpre, vbuild⟩
    subst hop
    simp only [matches_impl]
    cases cminor <;> cases cpatch <;>
      by_cases hmaj : vmajor = cmajor <;>
        simp [matches_tilde, hmaj] <;> split_ifs <;> simp_all <;> omega
  · intro x b
    exact ⟨by simp [matches_impl, matches_tilde]; decide,
      by simp [matches_impl, matches_tilde]⟩

/-- C6 witness: `~1.2` matches `1.2.7` and rejects `1.3.0`. -/
theorem C6_tilde_rules_witness :
    matches_impl ⟨Op.Tilde, 1, some 2, none, []⟩ ⟨1, 2, 7, [], ""⟩ = true
      ∧ matches_impl ⟨Op.Tilde, 1, some 2, none, []⟩ ⟨1, 3, 0, [], ""⟩ = false :=
  (C6_tilde_rules ⟨Op.Tilde, 1, some 2, none, []⟩ ⟨1, 2, 7, [], ""⟩ rfl).2 7 ""

end Semver
